import Mathlib

/-!
Verification development for the c2pa-testfile-maker pipeline: a shallow
embedding of the manifest assembly, signing and extraction code
(`src/main.rs`, `tests/common/mod.rs`) together with proofs of its
specified properties.  File-system state is modelled explicitly as a
finite association of paths to file contents; the external `c2pa` crate
(Builder / Reader / container codec) is modelled from the specification's
codec contract where noted.
-/

deriving instance DecidableEq for Except

namespace C2pa

/-- A file-system path: an absolute/relative flag plus components, mirroring
`std::path::PathBuf` (where `is_absolute` drives ingredient resolution). -/
structure FPath where
  isAbs : Bool
  comps : List String
deriving DecidableEq, Repr

/-- `PathBuf::join`: an absolute right operand replaces the base entirely. -/
def FPath.join (b p : FPath) : FPath :=
  if p.isAbs then p else ⟨b.isAbs, b.comps ++ p.comps⟩

/-- Split a character list at every dot (the semantics of
`name.split('.')` on the single-character separator). -/
def splitOnDot : List Char → List (List Char)
  | [] => [[]]
  | c :: rest =>
    if c = '.' then [] :: splitOnDot rest
    else
      match splitOnDot rest with
      | [] => [[c]]
      | s :: ss => (c :: s) :: ss

/-- `Path::extension` on a single file name: the part after the last dot;
`none` when there is no dot, or when the only dot is a leading one
(hidden files such as `.gitignore`). -/
def fileExtension (name : String) : Option String :=
  match splitOnDot name.data with
  | [] => none
  | [_] => none
  | [] :: [_] => none
  | parts => parts.getLast?.map (fun l => String.mk l)

/-- `Path::extension` on a path: the extension of its final component. -/
def FPath.extension (p : FPath) : Option String :=
  p.comps.getLast?.bind fileExtension

/-- `str::to_lowercase` as used by the code: per-character lowercasing
(all inputs matched against are ASCII, where this agrees with Unicode
lowercasing). -/
def strLower (s : String) : String := String.mk (s.data.map Char.toLower)

/-- Errors of the pipeline (the `anyhow` / `c2pa::Error` values the code
produces, each carrying the same data as the corresponding `bail!`). -/
inductive Err where
  | ioError
  | invalidManifestSpec
  | noFilename
  | unsupportedAlgorithm (alg : String)
  | missingFilePath
  | ingredientNotFound (path : FPath)
  | noExtension
  | unsupportedFormat
  | invalidRelationship (rel : String)
  | noActiveManifest
  | pemParseError
  | malformedKey
  | signerFailed
deriving DecidableEq, Repr

/-- `c2pa::SigningAlg` (the variants named in `parse_signing_algorithm`). -/
inductive SigningAlg where
  | es256 | es384 | es512 | ps256 | ps384 | ps512 | ed25519
deriving DecidableEq, Repr

/-- `parse_signing_algorithm` from `src/main.rs`: lowercase the name and
match it against the seven supported identifiers; anything else is
`Unsupported signing algorithm: {alg}` (carrying the original string). -/
def parse_signing_algorithm (alg : String) : Except Err SigningAlg :=
  let l := strLower alg
  if l = "es256" then .ok .es256
  else if l = "es384" then .ok .es384
  else if l = "es512" then .ok .es512
  else if l = "ps256" then .ok .ps256
  else if l = "ps384" then .ok .ps384
  else if l = "ps512" then .ok .ps512
  else if l = "ed25519" then .ok .ed25519
  else .error (.unsupportedAlgorithm alg)

/-- The canonical lowercase name of each supported algorithm. -/
def algName : SigningAlg → String
  | .es256 => "es256"
  | .es384 => "es384"
  | .es512 => "es512"
  | .ps256 => "ps256"
  | .ps384 => "ps384"
  | .ps512 => "ps512"
  | .ed25519 => "ed25519"

/-- `c2pa::Relationship` (the two variants the code constructs). -/
inductive Relationship where
  | parentOf | componentOf
deriving DecidableEq, Repr

/-- The inline relationship match of `process_ingredients`
(`tests/common/mod.rs` lines 146-150): case-insensitive `parentof` /
`componentof`, anything else is `Invalid relationship type: {rel}`. -/
def parseRelationship (rel : String) : Except Err Relationship :=
  let l := strLower rel
  if l = "parentof" then .ok .parentOf
  else if l = "componentof" then .ok .componentOf
  else .error (.invalidRelationship rel)

/-- `extension_to_mime` from `tests/common/mod.rs`: the fixed
extension→MIME table, applied to the lowercased extension. -/
def extension_to_mime (extension : String) : Option String :=
  let l := strLower extension
  if l = "jpg" ∨ l = "jpeg" then some "image/jpeg"
  else if l = "png" then some "image/png"
  else if l = "gif" then some "image/gif"
  else if l = "webp" then some "image/webp"
  else if l = "tiff" ∨ l = "tif" then some "image/tiff"
  else if l = "bmp" then some "image/bmp"
  else none

/-- An assertion of the manifest: a label plus an opaque payload (the
payload is structured JSON the pipeline never interprets). -/
structure Assertion where
  label : String
  payload : String
deriving DecidableEq, Repr

/-- One entry of the manifest JSON's `ingredients_from_files` array:
`{file_path, title?, relationship?}`.  A present-but-non-string field is
modelled the same as an absent one, exactly as `.and_then(|v| v.as_str())`
treats it. -/
structure IngredientDef where
  file_path : Option FPath
  title : Option String
  relationship : Option String
deriving DecidableEq, Repr

/-- The parsed manifest configuration JSON: title, ordered assertions and
the optional `ingredients_from_files` array (`none` when the field is
absent or not an array, in which case `process_ingredients` does
nothing). -/
structure ManifestSpec where
  title : Option String
  assertions : List Assertion
  ingredients_from_files : Option (List IngredientDef)
deriving DecidableEq, Repr

/-- A `c2pa::Ingredient` as the pipeline constructs it:
`Ingredient::from_stream` fixes the format and content, then optional
`set_title` / `set_relationship` calls adjust it. -/
structure Ingredient where
  format : String
  title : Option String
  relationship : Relationship
  data : List Nat
deriving DecidableEq, Repr

/-- `Ingredient::from_stream`: fresh ingredient with the detected format;
the default relationship of a fresh ingredient is `ComponentOf`. -/
def Ingredient.from_stream (format : String) (data : List Nat) : Ingredient :=
  { format := format, title := none, relationship := .componentOf, data := data }

def Ingredient.set_title (i : Ingredient) (t : String) : Ingredient :=
  { i with title := some t }

def Ingredient.set_relationship (i : Ingredient) (r : Relationship) : Ingredient :=
  { i with relationship := r }

/-- The embedded manifest block of a signed asset, as written by
`Builder::sign_file` and recovered by `Reader`.  Modelled from the spec:
the container codec is an external black box whose contract is
"round-trips manifest bytes unmodified". -/
structure EmbeddedManifest where
  label : String
  title : Option String
  assertions : List Assertion
  ingredients : List Ingredient
  signature : List Nat
deriving DecidableEq, Repr

/-- A media asset: opaque content plus the optional embedded manifest
block ( `embedded = none` exactly for assets never passed through the
embed step). -/
structure Asset where
  content : List Nat
  embedded : Option EmbeddedManifest
deriving DecidableEq, Repr

/-- What a path can hold on disk: a media asset, a manifest-configuration
JSON (already parsed; `Builder::from_json` failure on non-manifest content
is the `invalidManifestSpec` branch), or raw bytes. -/
inductive FileData where
  | asset (a : Asset)
  | manifestJson (m : ManifestSpec)
  | raw (bytes : List Nat)
deriving DecidableEq, Repr

/-- The file system visible to one pipeline invocation: a finite
association of paths to contents, plus the set of existing directories
(only `output.is_dir()` consults it). -/
structure FS where
  files : List (FPath × FileData)
  dirs : List FPath
deriving DecidableEq, Repr

/-- First entry for a path in an association list of files. -/
def lookupList : List (FPath × FileData) → FPath → Option FileData
  | [], _ => none
  | e :: rest, p => if e.1 = p then some e.2 else lookupList rest p

/-- Drop every entry for a path from an association list of files. -/
def removeList : List (FPath × FileData) → FPath → List (FPath × FileData)
  | [], _ => []
  | e :: rest, p =>
    if e.1 = p then removeList rest p else e :: removeList rest p

def FS.lookup (fs : FS) (p : FPath) : Option FileData :=
  lookupList fs.files p

def FS.existsFile (fs : FS) (p : FPath) : Bool :=
  (fs.lookup p).isSome

/-- `fs::remove_file`. -/
def FS.removeFile (fs : FS) (p : FPath) : FS :=
  ⟨removeList fs.files p, fs.dirs⟩

/-- `fs::write` (and `sign_file`'s output write): replaces any previous
content at the path. -/
def FS.write (fs : FS) (p : FPath) (d : FileData) : FS :=
  ⟨(p, d) :: (fs.removeFile p).files, fs.dirs⟩

/-- The `if output_path.exists() { fs::remove_file(output_path)?; }`
prologue shared by the signing and extraction helpers. -/
def removeIfExists (fs : FS) (p : FPath) : FS :=
  if fs.existsFile p then fs.removeFile p else fs

/-- Bytes read from an opened file (`fs::File::open` + stream read); only
called on paths whose existence was already checked. -/
def FS.ingredientBytes (fs : FS) (p : FPath) : List Nat :=
  match fs.lookup p with
  | some (.asset a) => a.content
  | some (.raw b) => b
  | _ => []

/-- The path-resolution step of `process_ingredients` (lines 114-118):
an absolute `file_path` is used verbatim, a relative one is joined to the
caller-supplied base directory. -/
def resolvePath (base fp : FPath) : FPath :=
  if fp.isAbs then fp else base.join fp

/-- The body of `process_ingredients`' loop for one
`ingredients_from_files` entry (lines 106-155): require `file_path`,
resolve it, require existence, open the file, detect the format from the
extension, build the ingredient and apply the optional title and
relationship. -/
def processOneIngredient (fs : FS) (base : FPath) (d : IngredientDef) :
    Except Err Ingredient :=
  match d.file_path with
  | none => .error .missingFilePath
  | some fp =>
    let file_path := resolvePath base fp
    if fs.existsFile file_path then
      match file_path.extension with
      | none => .error .noExtension
      | some ext =>
        match extension_to_mime ext with
        | none => .error .unsupportedFormat
        | some fmt =>
          let ing := Ingredient.from_stream fmt (fs.ingredientBytes file_path)
          let ing1 := match d.title with
            | some t => ing.set_title t
            | none => ing
          match d.relationship with
          | none => .ok ing1
          | some r =>
            match parseRelationship r with
            | .error e => .error e
            | .ok rel => .ok (ing1.set_relationship rel)
    else .error (.ingredientNotFound file_path)

/-- The loop of `process_ingredients` over the entries, in order; the `?`
on each entry makes the first failure abort the whole batch. -/
def processIngredientList (fs : FS) (base : FPath) :
    List IngredientDef → Except Err (List Ingredient)
  | [] => .ok []
  | d :: rest =>
    match processOneIngredient fs base d with
    | .error e => .error e
    | .ok i =>
      match processIngredientList fs base rest with
      | .error e => .error e
      | .ok is => .ok (i :: is)

/-- `process_ingredients`: a missing or non-array `ingredients_from_files`
field means nothing to do; otherwise process every entry in order. -/
def processIngredients (fs : FS) (base : FPath)
    (defs : Option (List IngredientDef)) : Except Err (List Ingredient) :=
  match defs with
  | none => .ok []
  | some l => processIngredientList fs base l

/-- A `c2pa::CallbackSigner`: an algorithm, a certificate chain and the
caller-supplied signing callback over message bytes. -/
structure CallbackSigner where
  alg : SigningAlg
  certs : List Nat
  callback : List Nat → Except Err (List Nat)

/-- Modelled from the spec: the canonical byte form of the accumulated
manifest that `sign_file` hands to the signer (the exact digest scope is
implementation-fixed and opaque; only its existence matters here). -/
def serializeManifest (title : Option String) (assertions : List Assertion)
    (ingredients : List Ingredient) : List Nat :=
  ((title.getD "").data.map Char.toNat)
    ++ (assertions.map (fun a => a.label.length))
    ++ (ingredients.map (fun i => i.data.length))

/-- A `c2pa::Builder`: the parsed manifest definition plus the
ingredients added so far, in insertion order. -/
structure Builder where
  spec : ManifestSpec
  ingredients : List Ingredient
deriving DecidableEq, Repr

/-- `Builder::from_json` on an already-parsed manifest definition (the
unknown `ingredients_from_files` field is ignored by the builder itself
for forward compatibility). -/
def Builder.from_json (m : ManifestSpec) : Builder :=
  { spec := m, ingredients := [] }

/-- `Builder::add_ingredient`: appends, preserving insertion order. -/
def Builder.add_ingredient (b : Builder) (i : Ingredient) : Builder :=
  { b with ingredients := b.ingredients ++ [i] }

/-- The label the signing step assigns to the new active manifest. -/
def manifestLabel : String := "urn:c2pa:manifest"

/-- `Builder::sign_file`.  Modelled from the spec: the external codec
"round-trips manifest bytes unmodified and does not corrupt unrelated
asset content", so embedding stores the manifest block alongside the
asset content; signer failure aborts with no output written. -/
def Builder.sign_file (b : Builder) (signer : CallbackSigner) (fs : FS)
    (input output : FPath) : Except Err FS :=
  match fs.lookup input with
  | some (.asset a) =>
    match signer.callback
        (serializeManifest b.spec.title b.spec.assertions b.ingredients) with
    | .error e => .error e
    | .ok sig =>
      .ok (fs.write output (.asset
        { content := a.content
          embedded := some
            { label := manifestLabel
              title := b.spec.title
              assertions := b.spec.assertions
              ingredients := b.ingredients
              signature := sig } }))
  | _ => .error .ioError

/-- A `c2pa::Reader`: the active manifest of the opened asset, when
present. -/
structure Reader where
  active : Option EmbeddedManifest
deriving DecidableEq, Repr

/-- `Reader::from_file`.  Modelled from the spec: opening an asset never
passed through embed yields a Reader with no active manifest. -/
def Reader.from_file (fs : FS) (p : FPath) : Except Err Reader :=
  match fs.lookup p with
  | some (.asset a) => .ok { active := a.embedded }
  | _ => .error .ioError

/-- `Reader::active_label`: the label of the active manifest, if any. -/
def Reader.active_label (r : Reader) : Option String :=
  r.active.map (fun em => em.label)

/-- `Reader::get_manifest`: look a manifest up by label. -/
def Reader.get_manifest (r : Reader) (label : String) :
    Option EmbeddedManifest :=
  match r.active with
  | some em => if em.label = label then some em else none
  | none => none

/-- `sign_file_with_manifest` (tests/common/mod.rs lines 34-57): remove a
pre-existing output, read and parse the manifest JSON, build, sign and
embed.  The test's fixed `test_signer()` is abstracted into the signer
parameter.  The returned pair is the resulting file system plus the
`Result`. -/
def sign_file_with_manifest (fs : FS) (input output manifestP : FPath)
    (signer : CallbackSigner) : FS × Except Err Unit :=
  let fs1 := removeIfExists fs output
  match fs1.lookup manifestP with
  | some (.manifestJson m) =>
    match (Builder.from_json m).sign_file signer fs1 input output with
    | .error e => (fs1, .error e)
    | .ok fs2 => (fs2, .ok ())
  | some _ => (fs1, .error .invalidManifestSpec)
  | none => (fs1, .error .ioError)

/-- `sign_file_with_manifest_and_ingredients` (lines 61-88): same, but
`process_ingredients` runs between parsing and signing, adding each
resolved ingredient to the builder in order. -/
def sign_file_with_manifest_and_ingredients (fs : FS)
    (input output manifestP base : FPath) (signer : CallbackSigner) :
    FS × Except Err Unit :=
  let fs1 := removeIfExists fs output
  match fs1.lookup manifestP with
  | some (.manifestJson m) =>
    match processIngredients fs1 base m.ingredients_from_files with
    | .error e => (fs1, .error e)
    | .ok ings =>
      let b := ings.foldl Builder.add_ingredient (Builder.from_json m)
      match b.sign_file signer fs1 input output with
      | .error e => (fs1, .error e)
      | .ok fs2 => (fs2, .ok ())
  | some _ => (fs1, .error .invalidManifestSpec)
  | none => (fs1, .error .ioError)

/-- The pretty-printed manifest JSON `extract_manifest_to_file` writes;
its exact bytes are irrelevant to the properties proved here. -/
def readerJsonBytes (em : EmbeddedManifest) : List Nat :=
  serializeManifest em.title em.assertions em.ingredients

/-- `extract_manifest_to_file` (lines 228-257): remove a pre-existing
output, open the input with a Reader, require an active manifest, then
write the manifest JSON to the output path. -/
def extract_manifest_to_file (fs : FS) (input output : FPath) :
    FS × Except Err Unit :=
  let fs1 := removeIfExists fs output
  match Reader.from_file fs1 input with
  | .error e => (fs1, .error e)
  | .ok reader =>
    match reader.active with
    | none => (fs1, .error .noActiveManifest)
    | some em => (fs1.write output (.raw (readerJsonBytes em)), .ok ())

/-- Outcome of `ed_sign`: a signature, a returned error, or a Rust panic
(the out-of-bounds slice `&pem.contents()[16..]` when the body is shorter
than 16 bytes aborts instead of returning an error). -/
inductive EdSignOutcome where
  | ok (sig : List Nat)
  | err (e : Err)
  | panicked
deriving DecidableEq, Repr

/-- `ed_sign` (tests/common/mod.rs lines 186-202), parameterized over the
external `pem::parse` (`none` = parse error) and the `ed25519_dalek`
signing primitive (raw 32-byte seed and message to signature bytes):
parse the PEM, slice the decoded body from byte 16 on, require a 32-byte
remainder as the raw signing key, and sign the data with it. -/
def ed_sign (pemParse : List Nat → Option (List Nat))
    (dalekSign : List Nat → List Nat → List Nat)
    (data privateKey : List Nat) : EdSignOutcome :=
  match pemParse privateKey with
  | none => .err .pemParseError
  | some contents =>
    if 16 ≤ contents.length then
      let key_bytes := contents.drop 16
      if key_bytes.length = 32 then .ok (dalekSign key_bytes data)
      else .err .malformedKey
    else .panicked

/-- The externally observable file-system operations of `main`, named by
their role (so that coinciding paths cannot conflate two operations). -/
inductive Event where
  | readManifestFile
  | statInputFile
  | statOutputPath
  | createOutputDir
  | loadCertAndKey
  | readInputAsset
  | writeOutputAsset
deriving DecidableEq, Repr

/-- The parsed command line of `main`. -/
structure Cli where
  manifest : FPath
  input : FPath
  output : FPath
  cert : FPath
  key : FPath
  algorithm : String

def FPath.fileName (p : FPath) : Option String := p.comps.getLast?

/-- `determine_output_path` from `src/main.rs`: a directory output gets
the input's file name appended; anything else is used as given. -/
def determine_output_path (fs : FS) (input output : FPath) :
    Except Err FPath :=
  if output ∈ fs.dirs then
    match input.fileName with
    | none => .error .noFilename
    | some f => .ok (output.join ⟨false, [f]⟩)
  else .ok output

/-- `main` from `src/main.rs` as a trace of file-system operations plus
its result, in the source's order: read the manifest JSON, stat the
input, stat the output, create the output directory, parse the signing
algorithm, build from JSON, create the signer from the cert/key files
(abstracted as `mkSigner`, the external `create_signer::from_files`),
then sign and embed. -/
def mainRun (fs : FS)
    (mkSigner : FS → FPath → FPath → SigningAlg → Except Err CallbackSigner)
    (cli : Cli) : List Event × Except Err Unit :=
  let e0 := [Event.readManifestFile]
  match fs.lookup cli.manifest with
  | none => (e0, .error .ioError)
  | some fd =>
    let e1 := e0 ++ [Event.statInputFile]
    if fs.existsFile cli.input then
      let e2 := e1 ++ [Event.statOutputPath]
      match determine_output_path fs cli.input cli.output with
      | .error e => (e2, .error e)
      | .ok output_path =>
        let e3 := e2 ++ [Event.createOutputDir]
        match parse_signing_algorithm cli.algorithm with
        | .error e => (e3, .error e)
        | .ok alg =>
          match fd with
          | .manifestJson m =>
            let e4 := e3 ++ [Event.loadCertAndKey]
            match mkSigner fs cli.cert cli.key alg with
            | .error e => (e4, .error e)
            | .ok signer =>
              let e5 := e4 ++ [Event.readInputAsset]
              match (Builder.from_json m).sign_file signer fs cli.input
                  output_path with
              | .error e => (e5, .error e)
              | .ok _ => (e5 ++ [Event.writeOutputAsset], .ok ())
          | _ => (e3, .error .invalidManifestSpec)
    else (e1, .error .ioError)

/-! ## File-system lemmas -/

theorem lookupList_removeList_ne (l : List (FPath × FileData))
    (p q : FPath) (h : ¬ q = p) :
    lookupList (removeList l p) q = lookupList l q := by
  have h' : ¬ p = q := fun hpq => h hpq.symm
  induction l with
  | nil => rfl
  | cons a l ih =>
    by_cases hp : a.1 = p
    · have hq : ¬ a.1 = q := fun hq => h (hq ▸ hp)
      simp [removeList, lookupList, hp, hq, ih, h, h']
    · by_cases hq : a.1 = q <;>
        simp [removeList, lookupList, hp, hq, ih, h, h']

theorem lookupList_removeList_self (l : List (FPath × FileData))
    (p : FPath) : lookupList (removeList l p) p = none := by
  induction l with
  | nil => rfl
  | cons a l ih =>
    by_cases hp : a.1 = p <;> simp [removeList, lookupList, hp, ih]

theorem FS.lookup_removeFile_ne (fs : FS) (p q : FPath) (h : ¬ q = p) :
    (fs.removeFile p).lookup q = fs.lookup q :=
  lookupList_removeList_ne fs.files p q h

theorem FS.lookup_removeIfExists_ne (fs : FS) (p q : FPath) (h : ¬ q = p) :
    (removeIfExists fs p).lookup q = fs.lookup q := by
  unfold removeIfExists
  split
  · exact fs.lookup_removeFile_ne p q h
  · rfl

theorem FS.lookup_removeFile_self (fs : FS) (p : FPath) :
    (fs.removeFile p).lookup p = none :=
  lookupList_removeList_self fs.files p

theorem FS.existsFile_removeIfExists_self (fs : FS) (p : FPath) :
    (removeIfExists fs p).existsFile p = false := by
  unfold removeIfExists
  split
  · simp [FS.existsFile, fs.lookup_removeFile_self p]
  · rename_i h
    simp only [FS.existsFile] at h ⊢
    simp_all

theorem FS.lookup_write_self (fs : FS) (p : FPath) (d : FileData) :
    (fs.write p d).lookup p = some d := by
  simp [FS.write, FS.lookup, lookupList]

/-! ## C4: signing-algorithm parsing -/

/-- C4.  For every string `s`, `parse_signing_algorithm` succeeds with
algorithm `a` exactly when the lowercase form of `s` is `a`'s name among
es256, es384, es512, ps256, ps384, ps512, ed25519, and fails with an
unsupported-algorithm error carrying `s` for every other string. -/
theorem parse_signing_algorithm_correct (s : String) :
    (∀ a : SigningAlg,
        parse_signing_algorithm s = .ok a ↔ strLower s = algName a) ∧
    ((∀ a : SigningAlg, ¬ strLower s = algName a) →
      parse_signing_algorithm s = .error (.unsupportedAlgorithm s)) := by
  constructor
  · intro a
    simp only [parse_signing_algorithm]
    cases a <;> simp only [algName] <;> split_ifs <;> simp_all
  · intro h
    simp only [parse_signing_algorithm]
    split_ifs with h1 h2 h3 h4 h5 h6 h7
    · exact absurd h1 (h .es256)
    · exact absurd h2 (h .es384)
    · exact absurd h3 (h .es512)
    · exact absurd h4 (h .ps256)
    · exact absurd h5 (h .ps384)
    · exact absurd h6 (h .ps512)
    · exact absurd h7 (h .ed25519)
    · rfl

/-- Witness for C4 at the concrete inputs "ES256" and "rsa". -/
theorem parse_signing_algorithm_correct_witness :
    parse_signing_algorithm "ES256" = .ok .es256 ∧
    parse_signing_algorithm "rsa" = .error (.unsupportedAlgorithm "rsa") :=
  ⟨((parse_signing_algorithm_correct "ES256").1 .es256).2 (by decide),
   (parse_signing_algorithm_correct "rsa").2 (by intro a; cases a <;> decide)⟩

/-! ## Ingredient-batch lemmas -/

/-- When every entry of a prefix resolves and the next entry fails, the
whole batch fails with exactly the first failure's error. -/
theorem processIngredientList_first_error (fs : FS) (base : FPath)
    (pre post : List IngredientDef) (d : IngredientDef) (e : Err)
    (hpre : ∀ d' ∈ pre, (processOneIngredient fs base d').isOk = true)
    (hd : processOneIngredient fs base d = .error e) :
    processIngredientList fs base (pre ++ d :: post) = .error e := by
  induction pre with
  | nil => simp [processIngredientList, hd]
  | cons a rest ih =>
    have ha := hpre a (by simp)
    cases haa : processOneIngredient fs base a with
    | error e' => rw [haa] at ha; simp [Except.isOk, Except.toBool] at ha
    | ok i =>
      have ih' := ih (fun d' hd' => hpre d' (by simp [hd']))
      simp [processIngredientList, haa, ih']

/-- When the first failing `ingredients_from_files` entry fails with
error `e`, the whole sign-and-embed helper returns `e` and leaves the
file system in its post-removal state (in particular, it never signs and
never writes the output). -/
theorem signAndEmbed_ingredient_error (fs : FS)
    (input output manifestP base : FPath) (signer : CallbackSigner)
    (m : ManifestSpec) (pre post : List IngredientDef) (d : IngredientDef)
    (e : Err)
    (hm : (removeIfExists fs output).lookup manifestP
            = some (.manifestJson m))
    (hing : m.ingredients_from_files = some (pre ++ d :: post))
    (hpre : ∀ d' ∈ pre,
        (processOneIngredient (removeIfExists fs output) base d').isOk
          = true)
    (hd : processOneIngredient (removeIfExists fs output) base d
            = .error e) :
    sign_file_with_manifest_and_ingredients fs input output manifestP base
        signer = (removeIfExists fs output, .error e) := by
  have hlist := processIngredientList_first_error (removeIfExists fs output)
    base pre post d e hpre hd
  simp [sign_file_with_manifest_and_ingredients, hm, hing,
    processIngredients, hlist]

/-! ## C2: fail-fast on missing ingredient -/

/-- C2.  If every `ingredients_from_files` entry before `d` resolves and
`d`'s resolved path (absolute used verbatim, relative joined to the base
directory) does not exist, the sign-and-embed helper aborts at that first
failure with an ingredient-not-found error carrying the attempted path,
and the output path holds no file afterwards (a pre-existing output was
removed, and nothing was written). -/
theorem sign_and_embed_missing_ingredient (fs : FS)
    (input output manifestP base : FPath) (signer : CallbackSigner)
    (m : ManifestSpec) (pre post : List IngredientDef) (d : IngredientDef)
    (fp : FPath)
    (hm : (removeIfExists fs output).lookup manifestP
            = some (.manifestJson m))
    (hing : m.ingredients_from_files = some (pre ++ d :: post))
    (hpre : ∀ d' ∈ pre,
        (processOneIngredient (removeIfExists fs output) base d').isOk
          = true)
    (hfp : d.file_path = some fp)
    (hmiss : (removeIfExists fs output).existsFile (resolvePath base fp)
               = false) :
    sign_file_with_manifest_and_ingredients fs input output manifestP base
        signer
      = (removeIfExists fs output,
         .error (.ingredientNotFound (resolvePath base fp))) ∧
    (sign_file_with_manifest_and_ingredients fs input output manifestP base
        signer).1.existsFile output = false := by
  have hd : processOneIngredient (removeIfExists fs output) base d
      = .error (.ingredientNotFound (resolvePath base fp)) := by
    simp [processOneIngredient, hfp, hmiss]
  have h1 := signAndEmbed_ingredient_error fs input output manifestP base
    signer m pre post d _ hm hing hpre hd
  exact ⟨h1, by rw [h1]; exact FS.existsFile_removeIfExists_self fs output⟩

/-- Witness for C2: a one-entry batch whose absolute path is absent. -/
theorem sign_and_embed_missing_ingredient_witness :
    sign_file_with_manifest_and_ingredients
        ⟨[(⟨true, ["m.json"]⟩,
           .manifestJson ⟨some "T", [],
             some [⟨some ⟨true, ["gone.jpg"]⟩, none, none⟩]⟩),
          (⟨true, ["in.jpg"]⟩, .asset ⟨[1], none⟩)], []⟩
        ⟨true, ["in.jpg"]⟩ ⟨true, ["out.jpg"]⟩ ⟨true, ["m.json"]⟩
        ⟨true, ["base"]⟩ ⟨.ed25519, [], fun _ => .ok []⟩
      = (⟨[(⟨true, ["m.json"]⟩,
            .manifestJson ⟨some "T", [],
              some [⟨some ⟨true, ["gone.jpg"]⟩, none, none⟩]⟩),
           (⟨true, ["in.jpg"]⟩, .asset ⟨[1], none⟩)], []⟩,
         .error (.ingredientNotFound ⟨true, ["gone.jpg"]⟩)) :=
  (sign_and_embed_missing_ingredient
    ⟨[(⟨true, ["m.json"]⟩,
       .manifestJson ⟨some "T", [],
         some [⟨some ⟨true, ["gone.jpg"]⟩, none, none⟩]⟩),
      (⟨true, ["in.jpg"]⟩, .asset ⟨[1], none⟩)], []⟩
    ⟨true, ["in.jpg"]⟩ ⟨true, ["out.jpg"]⟩ ⟨true, ["m.json"]⟩
    ⟨true, ["base"]⟩ ⟨.ed25519, [], fun _ => .ok []⟩
    ⟨some "T", [], some [⟨some ⟨true, ["gone.jpg"]⟩, none, none⟩]⟩
    [] [] ⟨some ⟨true, ["gone.jpg"]⟩, none, none⟩ ⟨true, ["gone.jpg"]⟩
    (by decide) (by decide) (by intro d' hd'; simp at hd')
    (by decide) (by decide)).1

/-! ## C5: relationship parsing -/

/-- C5.  Relationship values are accepted exactly when their lowercase
form is `parentof` (mapped to `ParentOf`) or `componentof` (mapped to
`ComponentOf`); an entry carrying any other value makes the sign-and-embed
helper abort with an invalid-relationship error before any signing
occurs (the output path holds no file afterwards). -/
theorem relationship_parsing (s : String) (fs : FS)
    (input output manifestP base : FPath) (signer : CallbackSigner)
    (m : ManifestSpec) (pre post : List IngredientDef) (d : IngredientDef)
    (fp : FPath) (ext fmt : String)
    (hm : (removeIfExists fs output).lookup manifestP
            = some (.manifestJson m))
    (hing : m.ingredients_from_files = some (pre ++ d :: post))
    (hpre : ∀ d' ∈ pre,
        (processOneIngredient (removeIfExists fs output) base d').isOk
          = true)
    (hfp : d.file_path = some fp)
    (hex : (removeIfExists fs output).existsFile (resolvePath base fp)
             = true)
    (hext : (resolvePath base fp).extension = some ext)
    (hmime : extension_to_mime ext = some fmt)
    (hrel : d.relationship = some s)
    (hbad1 : ¬ strLower s = "parentof")
    (hbad2 : ¬ strLower s = "componentof") :
    (∀ t : String,
        (parseRelationship t = .ok .parentOf ↔ strLower t = "parentof") ∧
        (parseRelationship t = .ok .componentOf ↔
          strLower t = "componentof")) ∧
    parseRelationship s = .error (.invalidRelationship s) ∧
    sign_file_with_manifest_and_ingredients fs input output manifestP base
        signer = (removeIfExists fs output,
                  .error (.invalidRelationship s)) ∧
    (sign_file_with_manifest_and_ingredients fs input output manifestP base
        signer).1.existsFile output = false := by
  have hrelparse : parseRelationship s = .error (.invalidRelationship s) := by
    simp [parseRelationship, hbad1, hbad2]
  have hd : processOneIngredient (removeIfExists fs output) base d
      = .error (.invalidRelationship s) := by
    simp [processOneIngredient, hfp, hex, hext, hmime, hrel, hrelparse]
  have h1 := signAndEmbed_ingredient_error fs input output manifestP base
    signer m pre post d _ hm hing hpre hd
  refine ⟨?_, hrelparse, h1,
    by rw [h1]; exact FS.existsFile_removeIfExists_self fs output⟩
  intro t
  constructor <;> (simp only [parseRelationship]; split_ifs <;> simp_all)

/-- Witness for C5: a one-entry batch whose relationship is "sibling". -/
theorem relationship_parsing_witness :
    sign_file_with_manifest_and_ingredients
        ⟨[(⟨true, ["m.json"]⟩,
           .manifestJson ⟨some "T", [],
             some [⟨some ⟨true, ["i.jpg"]⟩, none, some "sibling"⟩]⟩),
          (⟨true, ["i.jpg"]⟩, .raw [9]),
          (⟨true, ["in.jpg"]⟩, .asset ⟨[1], none⟩)], []⟩
        ⟨true, ["in.jpg"]⟩ ⟨true, ["out.jpg"]⟩ ⟨true, ["m.json"]⟩
        ⟨true, ["base"]⟩ ⟨.ed25519, [], fun _ => .ok []⟩
      = (⟨[(⟨true, ["m.json"]⟩,
            .manifestJson ⟨some "T", [],
              some [⟨some ⟨true, ["i.jpg"]⟩, none, some "sibling"⟩]⟩),
           (⟨true, ["i.jpg"]⟩, .raw [9]),
           (⟨true, ["in.jpg"]⟩, .asset ⟨[1], none⟩)], []⟩,
         .error (.invalidRelationship "sibling")) :=
  (relationship_parsing "sibling"
    ⟨[(⟨true, ["m.json"]⟩,
       .manifestJson ⟨some "T", [],
         some [⟨some ⟨true, ["i.jpg"]⟩, none, some "sibling"⟩]⟩),
      (⟨true, ["i.jpg"]⟩, .raw [9]),
      (⟨true, ["in.jpg"]⟩, .asset ⟨[1], none⟩)], []⟩
    ⟨true, ["in.jpg"]⟩ ⟨true, ["out.jpg"]⟩ ⟨true, ["m.json"]⟩
    ⟨true, ["base"]⟩ ⟨.ed25519, [], fun _ => .ok []⟩
    ⟨some "T", [], some [⟨some ⟨true, ["i.jpg"]⟩, none, some "sibling"⟩]⟩
    [] [] ⟨some ⟨true, ["i.jpg"]⟩, none, some "sibling"⟩
    ⟨true, ["i.jpg"]⟩ "jpg" "image/jpeg"
    (by decide) (by decide) (by intro d' hd'; simp at hd')
    (by decide) (by decide) (by decide) (by decide) (by decide)
    (by decide) (by decide)).2.2.1

/-! ## C6: format detection -/

/-- C6.  Ingredient formats come from the file extension through exactly
the fixed case-insensitive table jpg/jpeg→image/jpeg, png→image/png,
gif→image/gif, webp→image/webp, tiff/tif→image/tiff, bmp→image/bmp, and
an entry whose extension is outside the table makes the sign-and-embed
helper abort with an unsupported-format error rather than silently
skipping the ingredient. -/
theorem format_detection (fs : FS)
    (input output manifestP base : FPath) (signer : CallbackSigner)
    (m : ManifestSpec) (pre post : List IngredientDef) (d : IngredientDef)
    (fp : FPath) (ext : String)
    (hm : (removeIfExists fs output).lookup manifestP
            = some (.manifestJson m))
    (hing : m.ingredients_from_files = some (pre ++ d :: post))
    (hpre : ∀ d' ∈ pre,
        (processOneIngredient (removeIfExists fs output) base d').isOk
          = true)
    (hfp : d.file_path = some fp)
    (hex : (removeIfExists fs output).existsFile (resolvePath base fp)
             = true)
    (hext : (resolvePath base fp).extension = some ext)
    (hmime : extension_to_mime ext = none) :
    (∀ t : String,
        (extension_to_mime t = some "image/jpeg" ↔
          (strLower t = "jpg" ∨ strLower t = "jpeg")) ∧
        (extension_to_mime t = some "image/png" ↔ strLower t = "png") ∧
        (extension_to_mime t = some "image/gif" ↔ strLower t = "gif") ∧
        (extension_to_mime t = some "image/webp" ↔ strLower t = "webp") ∧
        (extension_to_mime t = some "image/tiff" ↔
          (strLower t = "tiff" ∨ strLower t = "tif")) ∧
        (extension_to_mime t = some "image/bmp" ↔ strLower t = "bmp") ∧
        (extension_to_mime t = none ↔
          ¬ (strLower t = "jpg" ∨ strLower t = "jpeg" ∨
             strLower t = "png" ∨ strLower t = "gif" ∨
             strLower t = "webp" ∨ strLower t = "tiff" ∨
             strLower t = "tif" ∨ strLower t = "bmp"))) ∧
    sign_file_with_manifest_and_ingredients fs input output manifestP base
        signer = (removeIfExists fs output, .error .unsupportedFormat) ∧
    (sign_file_with_manifest_and_ingredients fs input output manifestP base
        signer).1.existsFile output = false := by
  have hd : processOneIngredient (removeIfExists fs output) base d
      = .error .unsupportedFormat := by
    simp [processOneIngredient, hfp, hex, hext, hmime]
  have h1 := signAndEmbed_ingredient_error fs input output manifestP base
    signer m pre post d _ hm hing hpre hd
  refine ⟨?_, h1,
    by rw [h1]; exact FS.existsFile_removeIfExists_self fs output⟩
  intro t
  simp only [extension_to_mime]
  generalize strLower t = x
  by_cases e1 : x = "jpg"
  · subst e1; decide
  by_cases e2 : x = "jpeg"
  · subst e2; decide
  by_cases e3 : x = "png"
  · subst e3; decide
  by_cases e4 : x = "gif"
  · subst e4; decide
  by_cases e5 : x = "webp"
  · subst e5; decide
  by_cases e6 : x = "tiff"
  · subst e6; decide
  by_cases e7 : x = "tif"
  · subst e7; decide
  by_cases e8 : x = "bmp"
  · subst e8; decide
  simp [e1, e2, e3, e4, e5, e6, e7, e8]

/-- Witness for C6: a one-entry batch whose file has extension "xyz". -/
theorem format_detection_witness :
    sign_file_with_manifest_and_ingredients
        ⟨[(⟨true, ["m.json"]⟩,
           .manifestJson ⟨some "T", [],
             some [⟨some ⟨true, ["i.xyz"]⟩, none, none⟩]⟩),
          (⟨true, ["i.xyz"]⟩, .raw [9]),
          (⟨true, ["in.jpg"]⟩, .asset ⟨[1], none⟩)], []⟩
        ⟨true, ["in.jpg"]⟩ ⟨true, ["out.jpg"]⟩ ⟨true, ["m.json"]⟩
        ⟨true, ["base"]⟩ ⟨.ed25519, [], fun _ => .ok []⟩
      = (⟨[(⟨true, ["m.json"]⟩,
            .manifestJson ⟨some "T", [],
              some [⟨some ⟨true, ["i.xyz"]⟩, none, none⟩]⟩),
           (⟨true, ["i.xyz"]⟩, .raw [9]),
           (⟨true, ["in.jpg"]⟩, .asset ⟨[1], none⟩)], []⟩,
         .error .unsupportedFormat) :=
  (format_detection
    ⟨[(⟨true, ["m.json"]⟩,
       .manifestJson ⟨some "T", [],
         some [⟨some ⟨true, ["i.xyz"]⟩, none, none⟩]⟩),
      (⟨true, ["i.xyz"]⟩, .raw [9]),
      (⟨true, ["in.jpg"]⟩, .asset ⟨[1], none⟩)], []⟩
    ⟨true, ["in.jpg"]⟩ ⟨true, ["out.jpg"]⟩ ⟨true, ["m.json"]⟩
    ⟨true, ["base"]⟩ ⟨.ed25519, [], fun _ => .ok []⟩
    ⟨some "T", [], some [⟨some ⟨true, ["i.xyz"]⟩, none, none⟩]⟩
    [] [] ⟨some ⟨true, ["i.xyz"]⟩, none, none⟩
    ⟨true, ["i.xyz"]⟩ "xyz"
    (by decide) (by decide) (by intro d' hd'; simp at hd')
    (by decide) (by decide) (by decide) (by decide)).2.1

/-! ## C9: path resolution and required file_path -/

/-- C9.  An absolute ingredient `file_path` is used verbatim — the
caller-supplied base directory is ignored entirely, so resolution does
not depend on it — while a relative one is joined to the base directory;
and an entry with no `file_path` is a hard error, never skipped. -/
theorem ingredient_path_resolution :
    (∀ base fp : FPath, fp.isAbs = true → resolvePath base fp = fp) ∧
    (∀ base fp : FPath, fp.isAbs = false →
        resolvePath base fp = FPath.join base fp) ∧
    (∀ (fs : FS) (base base' : FPath) (d : IngredientDef) (fp : FPath),
        d.file_path = some fp → fp.isAbs = true →
        processOneIngredient fs base d = processOneIngredient fs base' d) ∧
    (∀ (fs : FS) (base : FPath) (d : IngredientDef), d.file_path = none →
        processOneIngredient fs base d = .error .missingFilePath) := by
  refine ⟨?_, ?_, ?_, ?_⟩
  · intro base fp h; simp [resolvePath, h]
  · intro base fp h; simp [resolvePath, h]
  · intro fs base base' d fp hfp habs
    simp [processOneIngredient, hfp, resolvePath, habs]
  · intro fs base d h; simp [processOneIngredient, h]

/-- Witness for C9 at concrete paths. -/
theorem ingredient_path_resolution_witness :
    resolvePath ⟨true, ["base"]⟩ ⟨true, ["a.jpg"]⟩ = ⟨true, ["a.jpg"]⟩ ∧
    resolvePath ⟨true, ["base"]⟩ ⟨false, ["a.jpg"]⟩
      = ⟨true, ["base", "a.jpg"]⟩ ∧
    processOneIngredient ⟨[], []⟩ ⟨true, ["b1"]⟩
        ⟨some ⟨true, ["a.jpg"]⟩, none, none⟩
      = processOneIngredient ⟨[], []⟩ ⟨true, ["b2"]⟩
          ⟨some ⟨true, ["a.jpg"]⟩, none, none⟩ ∧
    processOneIngredient ⟨[], []⟩ ⟨true, ["b1"]⟩ ⟨none, none, none⟩
      = .error .missingFilePath :=
  ⟨ingredient_path_resolution.1 ⟨true, ["base"]⟩ ⟨true, ["a.jpg"]⟩ rfl,
   (ingredient_path_resolution.2.1 ⟨true, ["base"]⟩ ⟨false, ["a.jpg"]⟩
      rfl).trans (by decide),
   ingredient_path_resolution.2.2.1 ⟨[], []⟩ ⟨true, ["b1"]⟩ ⟨true, ["b2"]⟩
     ⟨some ⟨true, ["a.jpg"]⟩, none, none⟩ ⟨true, ["a.jpg"]⟩ rfl rfl,
   ingredient_path_resolution.2.2.2 ⟨[], []⟩ ⟨true, ["b1"]⟩
     ⟨none, none, none⟩ rfl⟩

/-! ## C7: Ed25519 key loading -/

/-- C7.  For every PEM whose decoded body parses (here: any 48-byte
body, i.e. 16-byte prefix plus 32-byte seed), `ed_sign` strips exactly
the first 16 bytes, interprets the remaining 32 bytes as the raw signing
key, and returns the signature of the message under that key (for any
interpretation of the external `ed25519_dalek` signing primitive). -/
theorem ed_sign_key_derivation
    (pemParse : List Nat → Option (List Nat))
    (dalekSign : List Nat → List Nat → List Nat)
    (data privateKey contents : List Nat)
    (hp : pemParse privateKey = some contents)
    (hlen : contents.length = 48) :
    contents.take 16 ++ contents.drop 16 = contents ∧
    (contents.drop 16).length = 32 ∧
    ed_sign pemParse dalekSign data privateKey
      = .ok (dalekSign (contents.drop 16) data) := by
  have h16 : 16 ≤ contents.length := by omega
  have h32 : (contents.drop 16).length = 32 := by
    simp [List.length_drop, hlen]
  refine ⟨List.take_append_drop 16 contents, h32, ?_⟩
  simp [ed_sign, hp, h16, h32]

/-- Witness for C7 on a concrete 48-byte decoded body. -/
theorem ed_sign_key_derivation_witness :
    ed_sign (fun _ => some (List.range 48)) (fun k m => k ++ m) [7] [0]
      = .ok ((List.range 48).drop 16 ++ [7]) :=
  (ed_sign_key_derivation (fun _ => some (List.range 48))
    (fun k m => k ++ m) [7] [0] (List.range 48) rfl (by decide)).2.2

/-! ## C10: ed_sign is not total on malformed keys -/

/-- C10.  `ed_sign` is not total: a decoded PEM body shorter than 16
bytes makes the slice from offset 16 panic (out-of-bounds) instead of
returning an error, and an error value is only ever returned for a PEM
parse failure or for a remainder that is not a valid 32-byte seed. -/
theorem ed_sign_short_body_panics
    (pemParse : List Nat → Option (List Nat))
    (dalekSign : List Nat → List Nat → List Nat)
    (data privateKey : List Nat) :
    (∀ contents, pemParse privateKey = some contents →
        contents.length < 16 →
        ed_sign pemParse dalekSign data privateKey = .panicked) ∧
    (∀ e, ed_sign pemParse dalekSign data privateKey = .err e →
        (pemParse privateKey = none ∧ e = .pemParseError) ∨
        (∃ contents, pemParse privateKey = some contents ∧
           16 ≤ contents.length ∧ ¬ (contents.drop 16).length = 32 ∧
           e = .malformedKey)) := by
  constructor
  · intro contents hp hlt
    have hn : ¬ 16 ≤ contents.length := by omega
    simp [ed_sign, hp, hn]
  · intro e he
    unfold ed_sign at he
    cases hp : pemParse privateKey with
    | none =>
      rw [hp] at he
      simp only [EdSignOutcome.err.injEq] at he
      exact .inl ⟨rfl, he.symm⟩
    | some contents =>
      rw [hp] at he
      have he' : (if 16 ≤ contents.length then
          (if (contents.drop 16).length = 32 then
            EdSignOutcome.ok (dalekSign (contents.drop 16) data)
          else .err .malformedKey)
        else .panicked) = .err e := he
      by_cases h16 : 16 ≤ contents.length
      · rw [if_pos h16] at he'
        by_cases h32 : (contents.drop 16).length = 32
        · rw [if_pos h32] at he'; exact absurd he' (by simp)
        · rw [if_neg h32] at he'
          simp only [EdSignOutcome.err.injEq] at he'
          exact .inr ⟨contents, rfl, h16, h32, he'.symm⟩
      · rw [if_neg h16] at he'; exact absurd he' (by simp)

/-- Witness for C10 on a concrete 15-byte decoded body. -/
theorem ed_sign_short_body_panics_witness :
    ed_sign (fun _ => some (List.replicate 15 0)) (fun _ _ => []) [1] [2]
      = .panicked :=
  (ed_sign_short_body_panics (fun _ => some (List.replicate 15 0))
    (fun _ _ => []) [1] [2]).1 (List.replicate 15 0) rfl (by decide)

/-! ## C1: sign-embed-extract round-trip -/

/-- C1.  For every valid triple of input asset, manifest spec and working
signer, signing and embedding the built manifest and then reading the
output back yields a Manifest whose title and assertion sequence (in
insertion order) are structurally equal to the spec's. -/
theorem sign_then_extract_roundtrip (fs : FS)
    (input output manifestP : FPath) (signer : CallbackSigner)
    (m : ManifestSpec) (a : Asset) (sig : List Nat)
    (hio : ¬ input = output) (hmo : ¬ manifestP = output)
    (hm : fs.lookup manifestP = some (.manifestJson m))
    (ha : fs.lookup input = some (.asset a))
    (hsig : signer.callback (serializeManifest m.title m.assertions [])
              = .ok sig) :
    ∃ fs2,
      sign_file_with_manifest fs input output manifestP signer
        = (fs2, .ok ()) ∧
      ∃ r, Reader.from_file fs2 output = .ok r ∧
        r.active_label = some manifestLabel ∧
        ∃ man, r.get_manifest manifestLabel = some man ∧
          man.title = m.title ∧ man.assertions = m.assertions ∧
          man.ingredients = [] := by
  have hm1 : (removeIfExists fs output).lookup manifestP
      = some (.manifestJson m) := by
    rw [FS.lookup_removeIfExists_ne fs output manifestP hmo]; exact hm
  have ha1 : (removeIfExists fs output).lookup input = some (.asset a) := by
    rw [FS.lookup_removeIfExists_ne fs output input hio]; exact ha
  refine ⟨(removeIfExists fs output).write output
      (.asset ⟨a.content, some ⟨manifestLabel, m.title, m.assertions, [],
        sig⟩⟩), ?_, ?_⟩
  · simp [sign_file_with_manifest, hm1, Builder.sign_file,
      Builder.from_json, ha1, hsig]
  · refine ⟨⟨some ⟨manifestLabel, m.title, m.assertions, [], sig⟩⟩,
      ?_, rfl, ?_⟩
    · simp [Reader.from_file, FS.lookup_write_self]
    · exact ⟨⟨manifestLabel, m.title, m.assertions, [], sig⟩,
        by simp [Reader.get_manifest], rfl, rfl, rfl⟩

/-- Witness for C1 on a concrete asset, manifest spec and signer. -/
theorem sign_then_extract_roundtrip_witness :
    ∃ fs2,
      sign_file_with_manifest
          ⟨[(⟨true, ["m.json"]⟩, .manifestJson ⟨some "T",
              [⟨"c2pa.asset-type", "pl"⟩], none⟩),
            (⟨true, ["in.jpg"]⟩, .asset ⟨[5], none⟩)], []⟩
          ⟨true, ["in.jpg"]⟩ ⟨true, ["out.jpg"]⟩ ⟨true, ["m.json"]⟩
          ⟨.ed25519, [], fun _ => .ok [3]⟩
        = (fs2, .ok ()) ∧
      ∃ r, Reader.from_file fs2 ⟨true, ["out.jpg"]⟩ = .ok r ∧
        r.active_label = some manifestLabel ∧
        ∃ man, r.get_manifest manifestLabel = some man ∧
          man.title = some "T" ∧
          man.assertions = [⟨"c2pa.asset-type", "pl"⟩] ∧
          man.ingredients = [] :=
  sign_then_extract_roundtrip
    ⟨[(⟨true, ["m.json"]⟩, .manifestJson ⟨some "T",
        [⟨"c2pa.asset-type", "pl"⟩], none⟩),
      (⟨true, ["in.jpg"]⟩, .asset ⟨[5], none⟩)], []⟩
    ⟨true, ["in.jpg"]⟩ ⟨true, ["out.jpg"]⟩ ⟨true, ["m.json"]⟩
    ⟨.ed25519, [], fun _ => .ok [3]⟩
    ⟨some "T", [⟨"c2pa.asset-type", "pl"⟩], none⟩ ⟨[5], none⟩ [3]
    (by decide) (by decide) (by decide) (by decide) rfl

/-! ## C8: no manifest implies no active label -/

/-- C8.  Opening an asset that was never passed through the embed step
yields a Reader whose active label is `none`, and the manifest-extraction
helper reports a no-active-manifest error and writes no output for such
assets. -/
theorem no_manifest_no_active_label (fs : FS) (input output : FPath)
    (a : Asset)
    (ha : (removeIfExists fs output).lookup input = some (.asset a))
    (hn : a.embedded = none) :
    ∃ r, Reader.from_file (removeIfExists fs output) input = .ok r ∧
      r.active_label = none ∧
      extract_manifest_to_file fs input output
        = (removeIfExists fs output, .error .noActiveManifest) ∧
      (extract_manifest_to_file fs input output).1.existsFile output
        = false := by
  have hr : Reader.from_file (removeIfExists fs output) input
      = .ok { active := none } := by
    simp [Reader.from_file, ha, hn]
  have he : extract_manifest_to_file fs input output
      = (removeIfExists fs output, .error .noActiveManifest) := by
    simp [extract_manifest_to_file, hr]
  exact ⟨{ active := none }, hr, rfl, he,
    by rw [he]; exact FS.existsFile_removeIfExists_self fs output⟩

/-- Witness for C8 on a concrete unsigned asset. -/
theorem no_manifest_no_active_label_witness :
    ∃ r, Reader.from_file
        (removeIfExists ⟨[(⟨true, ["plain.jpg"]⟩, .asset ⟨[5], none⟩)], []⟩
          ⟨true, ["out.json"]⟩) ⟨true, ["plain.jpg"]⟩ = .ok r ∧
      r.active_label = none ∧
      extract_manifest_to_file
          ⟨[(⟨true, ["plain.jpg"]⟩, .asset ⟨[5], none⟩)], []⟩
          ⟨true, ["plain.jpg"]⟩ ⟨true, ["out.json"]⟩
        = (removeIfExists ⟨[(⟨true, ["plain.jpg"]⟩, .asset ⟨[5], none⟩)], []⟩
             ⟨true, ["out.json"]⟩, .error .noActiveManifest) ∧
      (extract_manifest_to_file
          ⟨[(⟨true, ["plain.jpg"]⟩, .asset ⟨[5], none⟩)], []⟩
          ⟨true, ["plain.jpg"]⟩ ⟨true, ["out.json"]⟩).1.existsFile
        ⟨true, ["out.json"]⟩ = false :=
  no_manifest_no_active_label
    ⟨[(⟨true, ["plain.jpg"]⟩, .asset ⟨[5], none⟩)], []⟩
    ⟨true, ["plain.jpg"]⟩ ⟨true, ["out.json"]⟩ ⟨[5], none⟩
    (by decide) rfl

/-! ## C3: the algorithm gate versus file I/O -/

/-- Counterexample to C3 as stated: on a run with the unrecognized
algorithm name "rsa", `main` reads the manifest file, stats the input
and output paths and creates the output directory before rejecting the
algorithm — the rejection does not precede all file I/O. -/
theorem main_algorithm_gate_counterexample :
    mainRun
        ⟨[(⟨true, ["m.json"]⟩, .manifestJson ⟨some "T", [], none⟩),
          (⟨true, ["in.jpg"]⟩, .asset ⟨[1], none⟩)], []⟩
        (fun _ _ _ _ => .error .ioError)
        ⟨⟨true, ["m.json"]⟩, ⟨true, ["in.jpg"]⟩, ⟨true, ["out.jpg"]⟩,
         ⟨true, ["c.pem"]⟩, ⟨true, ["k.pem"]⟩, "rsa"⟩
      = ([.readManifestFile, .statInputFile, .statOutputPath,
          .createOutputDir], .error (.unsupportedAlgorithm "rsa")) ∧
    Event.readManifestFile ∈
      [Event.readManifestFile, Event.statInputFile, Event.statOutputPath,
       Event.createOutputDir] ∧
    Event.createOutputDir ∈
      [Event.readManifestFile, Event.statInputFile, Event.statOutputPath,
       Event.createOutputDir] := by decide

/-- C3 amended: a run with an unrecognized signing-algorithm name never
succeeds and is rejected before any key-loading side effect, input-asset
read or output write — but only after the manifest file has been read,
the input and output paths statted and the output directory created. -/
theorem main_algorithm_gate_amended (fs : FS)
    (mkSigner : FS → FPath → FPath → SigningAlg → Except Err CallbackSigner)
    (cli : Cli)
    (h : ∀ a : SigningAlg, ¬ parse_signing_algorithm cli.algorithm = .ok a) :
    ¬ (mainRun fs mkSigner cli).2 = .ok () ∧
    ¬ Event.loadCertAndKey ∈ (mainRun fs mkSigner cli).1 ∧
    ¬ Event.readInputAsset ∈ (mainRun fs mkSigner cli).1 ∧
    ¬ Event.writeOutputAsset ∈ (mainRun fs mkSigner cli).1 := by
  obtain ⟨e, hp⟩ : ∃ e, parse_signing_algorithm cli.algorithm = .error e := by
    cases hpa : parse_signing_algorithm cli.algorithm with
    | ok a => exact absurd hpa (h a)
    | error e => exact ⟨e, rfl⟩
  simp only [mainRun, hp]
  cases fs.lookup cli.manifest with
  | none => simp
  | some fd =>
    by_cases hin : fs.existsFile cli.input = true
    · simp only [hin, if_true]
      cases determine_output_path fs cli.input cli.output with
      | error e2 => simp
      | ok outp => simp
    · simp [hin]

/-- Witness for the amended C3 at a concrete run with algorithm "rsa". -/
theorem main_algorithm_gate_amended_witness :
    ¬ (mainRun ⟨[], []⟩ (fun _ _ _ _ => .error .ioError)
        ⟨⟨true, ["m"]⟩, ⟨true, ["i"]⟩, ⟨true, ["o"]⟩, ⟨true, ["c"]⟩,
         ⟨true, ["k"]⟩, "rsa"⟩).2 = .ok () ∧
    ¬ Event.loadCertAndKey ∈ (mainRun ⟨[], []⟩
        (fun _ _ _ _ => .error .ioError)
        ⟨⟨true, ["m"]⟩, ⟨true, ["i"]⟩, ⟨true, ["o"]⟩, ⟨true, ["c"]⟩,
         ⟨true, ["k"]⟩, "rsa"⟩).1 ∧
    ¬ Event.readInputAsset ∈ (mainRun ⟨[], []⟩
        (fun _ _ _ _ => .error .ioError)
        ⟨⟨true, ["m"]⟩, ⟨true, ["i"]⟩, ⟨true, ["o"]⟩, ⟨true, ["c"]⟩,
         ⟨true, ["k"]⟩, "rsa"⟩).1 ∧
    ¬ Event.writeOutputAsset ∈ (mainRun ⟨[], []⟩
        (fun _ _ _ _ => .error .ioError)
        ⟨⟨true, ["m"]⟩, ⟨true, ["i"]⟩, ⟨true, ["o"]⟩, ⟨true, ["c"]⟩,
         ⟨true, ["k"]⟩, "rsa"⟩).1 :=
  main_algorithm_gate_amended ⟨[], []⟩ (fun _ _ _ _ => .error .ioError)
    ⟨⟨true, ["m"]⟩, ⟨true, ["i"]⟩, ⟨true, ["o"]⟩, ⟨true, ["c"]⟩,
     ⟨true, ["k"]⟩, "rsa"⟩
    (by intro a; cases a <;> decide)

end C2pa
